import Mathlib

/-!
Verification of the DICOM anonymizer (`anonymize.py`).

The development shallowly embeds the program: a pydicom dataset is a record
of the nine identifying fields touched by the tool (each `Option String`,
`none` meaning the tag is absent, in which case `data_element(...).value = v`
raises) together with an opaque association list `other` holding every other
tag (pixel data, UIDs, acquisition parameters).  Filesystem reads are an
oracle `FS`; the side effects of a run (directory creation, file writes) are
collected as an explicit effect trace, and Python exceptions are modelled by
an `Option Err` component that aborts the remainder of the trace.
-/

namespace Anon

/-- The failure modes of the program: Python exceptions raised by the code
(`IOError` in `main`, `AttributeError` from `data_element(...).value` on a
missing tag, pydicom read errors, `KeyError` on a missing ReferencedFileID,
`IsADirectoryError` from writing to a directory path). -/
inductive Err where
  | notFound
  | invalidOutput
  | unreadableFormat
  | missingField
  | invalidIndex
  | unsupportedInput
  | missingReferencedFileID
  | isADirectory
  deriving DecidableEq, Repr

/-- A pydicom dataset, restricted to the nine identifying tags the tool
touches plus an opaque remainder.  Tag names follow pydicom keywords:
(0008,0090) ReferringPhysicianName, (0008,1048) PhysiciansOfRecord,
(0032,1032) RequestingPhysician. -/
structure DicomDataset where
  PatientID : Option String
  PatientName : Option String
  PatientBirthDate : Option String
  InstitutionName : Option String
  InstitutionAddress : Option String
  StationName : Option String
  ReferringPhysicianName : Option String
  PhysiciansOfRecord : Option String
  RequestingPhysician : Option String
  other : List ((Nat × Nat) × String)
  deriving DecidableEq, Repr

/-- `instance.data_element(name).value = v`: fails (AttributeError on `None`)
when the tag is absent, otherwise replaces the value. -/
def setRequired (cur : Option String) (v : String) : Except Err (Option String) :=
  match cur with
  | none => .error .missingField
  | some _ => .ok (some v)

/-- The field assignments of `anonymiseImageFile` (lines 52-66 of the source)
on an already-read dataset: the six unconditional `data_element` assignments,
then the three tag assignments guarded by `if tag in instance`. -/
def anonymiseDataset (d : DicomDataset) (PatientID PatientName PatientBirthDate : String) :
    Except Err DicomDataset := do
  let pid ← setRequired d.PatientID PatientID
  let pname ← setRequired d.PatientName PatientName
  let pbd ← setRequired d.PatientBirthDate PatientBirthDate
  let instName ← setRequired d.InstitutionName "REMOVED"
  let instAddr ← setRequired d.InstitutionAddress "REMOVED"
  let station ← setRequired d.StationName "REMOVED"
  .ok { d with
        PatientID := pid
        PatientName := pname
        PatientBirthDate := pbd
        InstitutionName := instName
        InstitutionAddress := instAddr
        StationName := station
        ReferringPhysicianName := d.ReferringPhysicianName.map (fun _ => "REMOVED")
        PhysiciansOfRecord := d.PhysiciansOfRecord.map (fun _ => "REMOVED")
        RequestingPhysician := d.RequestingPhysician.map (fun _ => "REMOVED") }

/-- `dcmread` followed by the assignments: reading a path whose content is not
a parsable DICOM dataset raises. -/
def anonymiseContent (c : Option DicomDataset) (pid pname pbdate : String) :
    Except Err DicomDataset :=
  match c with
  | none => .error .unreadableFormat
  | some d => anonymiseDataset d pid pname pbdate

/-- The value of a `ReferencedFileID` element: `VM == 1` means a single path
segment (`.value` is that string), otherwise `.value` is the list of
segments. -/
inductive RefFileID where
  | single (s : String)
  | multi (l : List String)
  deriving DecidableEq, Repr

/-- A DICOMDIR directory record below patient level: its
`DirectoryRecordType`, its `ReferencedFileID` element when present, and its
child records. -/
inductive DirRecord where
  | mk (directoryRecordType : String) (referencedFileID : Option RefFileID)
      (children : List DirRecord)

def DirRecord.directoryRecordType : DirRecord → String
  | .mk t _ _ => t

def DirRecord.referencedFileID : DirRecord → Option RefFileID
  | .mk _ r _ => r

def DirRecord.children : DirRecord → List DirRecord
  | .mk _ _ c => c

/-- A PATIENT record of a DICOMDIR: the three identity elements (absent tags
make `data_element(...).value` raise) and child records. -/
structure PatientRecord where
  PatientID : Option String
  PatientName : Option String
  PatientBirthDate : Option String
  children : List DirRecord

/-- A parsed DICOMDIR file. -/
structure DicomDir where
  patient_records : List PatientRecord

/-- A filesystem subtree as enumerated by `os.walk`: the direct files of a
directory (name and parsed content, `none` when `dcmread` would fail) and its
subdirectories. -/
inductive DirTree where
  | node (files : List (String × Option DicomDataset))
      (subdirs : List (String × DirTree))

/-- Side effects of a run, in program order. -/
inductive Effect where
  | rmtree (p : String)
  | makedirs (p : String)
  | save (p : String) (d : DicomDataset)
  | saveIndex (p : String) (dd : DicomDir)

/-- The filesystem oracle: existence and kind of each path, parsed content of
files (`content` for `dcmread`, `indexContent` for `read_dicomdir`), and the
`os.walk` view of a directory. -/
structure FS where
  pexists : String → Bool
  isfile : String → Bool
  isdir : String → Bool
  content : String → Option DicomDataset
  indexContent : String → Option DicomDir
  dirTree : String → DirTree

/-- `s` ends with `t` (the meaning of Python `s[-len(t):] == t`). -/
def strEndsWith (s t : String) : Bool := t.data.isSuffixOf s.data

/-- `q` lies strictly below the directory `root`. -/
def pathUnder (root q : String) : Bool := (root ++ "/").data.isPrefixOf q.data

/-- `shutil.rmtree p`: `p` and everything below it ceases to exist. -/
def FS.rmtree (fs : FS) (p : String) : FS :=
  { fs with
    pexists := fun q => if q == p || pathUnder p q then false else fs.pexists q
    isfile := fun q => if q == p || pathUnder p q then false else fs.isfile q
    isdir := fun q => if q == p || pathUnder p q then false else fs.isdir q
    content := fun q => if q == p || pathUnder p q then none else fs.content q
    indexContent := fun q => if q == p || pathUnder p q then none else fs.indexContent q }

/-- `os.makedirs p, exist_ok=True`: `p` becomes an existing directory (the
claims never depend on the implicit creation of parents, which is elided). -/
def FS.makedirs (fs : FS) (p : String) : FS :=
  { fs with
    pexists := fun q => if q == p then true else fs.pexists q
    isdir := fun q => if q == p then true else fs.isdir q }

/-- `os.path.join a b` for the shapes the program uses (`b` relative). -/
def osJoin (a b : String) : String :=
  if a = "" then b
  else if b = "" then (if strEndsWith a "/" then a else a ++ "/")
  else if strEndsWith a "/" then a ++ b else a ++ "/" ++ b

/-- Split a character list at each `'/'`. -/
def splitSlash : List Char → List (List Char)
  | [] => [[]]
  | c :: cs =>
    let r := splitSlash cs
    if c = '/' then [] :: r
    else
      match r with
      | [] => [[c]]
      | h :: t => (c :: h) :: t

/-- Rejoin character-list components with `'/'`. -/
def joinSlash : List (List Char) → List Char
  | [] => []
  | [l] => l
  | l :: ls => l ++ '/' :: joinSlash ls

/-- `os.path.split p`: everything before the last separator, and the tail
component after it. -/
def osSplit (p : String) : String × String :=
  let parts := splitSlash p.data
  ((joinSlash parts.dropLast).asString, (parts.getLastD []).asString)

/-- `os.path.basename`. -/
def basename (p : String) : String := (osSplit p).2

/-- `dcmread` at a path followed by the `anonymiseImageFile` assignments:
the model of `anonymiseImageFile(fname, ...)` (source lines 41-68). -/
def anonymiseImageFile (fs : FS) (fname : String)
    (PatientID PatientName PatientBirthDate : String) : Except Err DicomDataset :=
  anonymiseContent (fs.content fname) PatientID PatientName PatientBirthDate

/-- Sequential processing with exception propagation: effects accumulate in
order until the first raised exception aborts the remainder. -/
def runList (f : α → List Effect × Option Err) : List α → List Effect × Option Err
  | [] => ([], none)
  | a :: as =>
    match (f a).2 with
    | some e => ((f a).1, some e)
    | none => ((f a).1 ++ (runList f as).1, (runList f as).2)

/-- The replacement identity of the patient with 0-based ordinal `i` in an
index with `count` patients (source lines 89-96). -/
def newIdentity (count i : Nat) : String × String × String :=
  if count > 1 then
    ("REMOVED - " ++ Nat.repr i, "REMOVED - " ++ Nat.repr i, "99991231")
  else
    ("REMOVED", "REMOVED", "99991231")

/-- `ii["ReferencedFileID"]` and the VM normalisation of lines 119-122:
raises KeyError when the element is absent, otherwise yields the segment
list. -/
def DirRecord.referencedSegs (r : DirRecord) : Except Err (List String) :=
  match r.referencedFileID with
  | none => .error .missingReferencedFileID
  | some (.single s) => .ok [s]
  | some (.multi l) => .ok l

/-- `'/'`-join of path segments (`str(Path(*segs))` for relative segments). -/
def joinSegs : List String → String
  | [] => ""
  | [s] => s
  | s :: rest => s ++ "/" ++ joinSegs rest

/-- `dirname` from `os.path.split(Path(*segs))`. -/
def refSegsDirname (segs : List String) : String :=
  joinSegs segs.dropLast

/-- `fname` from `os.path.split(Path(*segs))`. -/
def refSegsBasename (segs : List String) : String := segs.getLastD ""

/-- The mirrored output directory of a referenced image (line 130). -/
def imageOutputDir (output_path : String) (segs : List String) : String :=
  osJoin output_path (refSegsDirname segs)

/-- The absolute source path of a referenced image (line 135). -/
def imageSourcePath (dicomdir_dirname : String) (segs : List String) : String :=
  osJoin (osJoin dicomdir_dirname (refSegsDirname segs)) (refSegsBasename segs)

/-- The output path of a referenced image (line 142). -/
def imageOutputPath (output_path : String) (segs : List String) : String :=
  osJoin (imageOutputDir output_path segs) (refSegsBasename segs)

/-- The body of the per-path loop of `anonymiseDICOMDIR` (lines 126-143):
create the mirrored directory, then, only if the source file exists,
anonymise and save it. -/
def processImagePath (fs : FS) (dicomdir_dirname output_path : String)
    (idn : String × String × String) (segs : List String) :
    List Effect × Option Err :=
  let outdir := imageOutputDir output_path segs
  let src := imageSourcePath dicomdir_dirname segs
  if fs.isfile src then
    match anonymiseImageFile fs src idn.1 idn.2.1 idn.2.2 with
    | .error e => ([Effect.makedirs outdir], some e)
    | .ok d2 => ([Effect.makedirs outdir, Effect.save (imageOutputPath output_path segs) d2], none)
  else
    ([Effect.makedirs outdir], none)

/-- Left-to-right traversal aborting at the first raised exception, the
semantics of a Python list comprehension over a fallible lookup. -/
def mapExcept (f : α → Except Err β) : List α → Except Err (List β)
  | [] => .ok []
  | a :: as =>
    match f a with
    | .error e => .error e
    | .ok b =>
      match mapExcept f as with
      | .error e => .error e
      | .ok bs => .ok (b :: bs)

/-- One SERIES record (lines 112-143): collect the IMAGE children, resolve
every `ReferencedFileID` (a KeyError aborts before any path of the series is
processed), then process each path in order. -/
def processSeries (fs : FS) (dicomdir_dirname output_path : String)
    (idn : String × String × String) (series : DirRecord) :
    List Effect × Option Err :=
  let images := series.children.filter (fun r => r.directoryRecordType == "IMAGE")
  match mapExcept DirRecord.referencedSegs images with
  | .error e => ([], some e)
  | .ok paths => runList (processImagePath fs dicomdir_dirname output_path idn) paths

/-- One STUDY record (lines 106-143). -/
def processStudy (fs : FS) (dicomdir_dirname output_path : String)
    (idn : String × String × String) (study : DirRecord) :
    List Effect × Option Err :=
  let all_series := study.children.filter (fun r => r.directoryRecordType == "SERIES")
  runList (processSeries fs dicomdir_dirname output_path idn) all_series

/-- The three `data_element(...).value` assignments on a patient record
(lines 98-100). -/
def anonPatientFields (p : PatientRecord) (pid pname pbdate : String) :
    Except Err PatientRecord := do
  let i1 ← setRequired p.PatientID pid
  let i2 ← setRequired p.PatientName pname
  let i3 ← setRequired p.PatientBirthDate pbdate
  .ok { p with PatientID := i1, PatientName := i2, PatientBirthDate := i3 }

/-- One iteration of the PATIENT loop (lines 83-143): overwrite the patient
identity, then process the STUDY children. -/
def processPatient (fs : FS) (dicomdir_dirname output_path : String)
    (count i : Nat) (p : PatientRecord) :
    PatientRecord × List Effect × Option Err :=
  let idn := newIdentity count i
  match anonPatientFields p idn.1 idn.2.1 idn.2.2 with
  | .error e => (p, [], some e)
  | .ok p1 =>
    let studies := p1.children.filter (fun r => r.directoryRecordType == "STUDY")
    let r := runList (processStudy fs dicomdir_dirname output_path idn) studies
    (p1, r.1, r.2)

/-- `enumerate(dicom_dir.patient_records)` with exception propagation. -/
def runPatients (fs : FS) (dicomdir_dirname output_path : String) (count : Nat) :
    Nat → List PatientRecord → List PatientRecord × List Effect × Option Err
  | _, [] => ([], [], none)
  | i, p :: ps =>
    match (processPatient fs dicomdir_dirname output_path count i p).2.2 with
    | some e =>
      ((processPatient fs dicomdir_dirname output_path count i p).1 :: ps,
       (processPatient fs dicomdir_dirname output_path count i p).2.1, some e)
    | none =>
      ((processPatient fs dicomdir_dirname output_path count i p).1
         :: (runPatients fs dicomdir_dirname output_path count (i + 1) ps).1,
       (processPatient fs dicomdir_dirname output_path count i p).2.1
         ++ (runPatients fs dicomdir_dirname output_path count (i + 1) ps).2.1,
       (runPatients fs dicomdir_dirname output_path count (i + 1) ps).2.2)

/-- `anonymiseDICOMDIR` (lines 71-145): read the index (`none` models a
`read_dicomdir` failure), then run the patient loop.  The result is the
mutated index (when readable), the effect trace, and the exception that
aborted the run, if any. -/
def anonymiseDICOMDIR (fs : FS) (fname output_path : String) :
    Option DicomDir × List Effect × Option Err :=
  match fs.indexContent fname with
  | none => (none, [], some .invalidIndex)
  | some dicom_dir =>
    let dicomdir_dirname := (osSplit fname).1
    let count := dicom_dir.patient_records.length
    let r := runPatients fs dicomdir_dirname output_path count 0 dicom_dir.patient_records
    (some { patient_records := r.1 }, r.2.1, r.2.2)

/-- `os.path.relpath` accumulation of `os.walk`: the root directory is `"."`,
a subdirectory extends its parent's relative path. -/
def childRel (rel name : String) : String :=
  if rel == "." then name else rel ++ "/" ++ name

/-- Anonymise and save one direct file of a leaf directory (lines 165-173),
with the fixed sentinel identity. -/
def processLeafFile (fs : FS) (dirpath outdir : String)
    (image_filename : String) : List Effect × Option Err :=
  match anonymiseImageFile fs (osJoin dirpath image_filename) "REMOVED" "REMOVED" "99991231" with
  | .error e => ([], some e)
  | .ok d2 => ([Effect.save (osJoin outdir image_filename) d2], none)

mutual

/-- The `os.walk` loop of `anonymiseDirectory` (lines 155-173) on the subtree
with relative path `rel`: a directory with at least one file and no
subdirectory has its mirrored directory created and its direct files
anonymised; every other directory contributes nothing of its own; then the
walk descends into the subdirectories in order. -/
def anonWalk (fs : FS) (dirpath output_path rel : String) :
    DirTree → List Effect × Option Err
  | .node files subdirs =>
    let here : List Effect × Option Err :=
      if files.length > 0 && subdirs.length == 0 then
        let outdir := osJoin output_path rel
        let r := runList (processLeafFile fs dirpath outdir) (files.map Prod.fst)
        (Effect.makedirs outdir :: r.1, r.2)
      else ([], none)
    match here.2 with
    | some e => (here.1, some e)
    | none =>
      (here.1 ++ (anonWalkList fs dirpath output_path rel subdirs).1,
       (anonWalkList fs dirpath output_path rel subdirs).2)

/-- Walk the subdirectories of a directory in order. -/
def anonWalkList (fs : FS) (dirpath output_path rel : String) :
    List (String × DirTree) → List Effect × Option Err
  | [] => ([], none)
  | (name, t) :: rest =>
    match (anonWalk fs (osJoin dirpath name) output_path (childRel rel name) t).2 with
    | some e => ((anonWalk fs (osJoin dirpath name) output_path (childRel rel name) t).1, some e)
    | none =>
      ((anonWalk fs (osJoin dirpath name) output_path (childRel rel name) t).1
         ++ (anonWalkList fs dirpath output_path rel rest).1,
       (anonWalkList fs dirpath output_path rel rest).2)

end

/-- `anonymiseDirectory` (lines 148-173). -/
def anonymiseDirectory (fs : FS) (fname output_path : String) :
    List Effect × Option Err :=
  anonWalk fs fname output_path "." (fs.dirTree fname)

/-- `isDICOMDIR` (lines 32-38): `fname[-len("DICOMDIR"):] == "DICOMDIR"`, a
suffix test on the whole path string, conjoined with `os.path.isfile`. -/
def isDICOMDIR (fs : FS) (fname : String) : Bool :=
  strEndsWith fname "DICOMDIR" && fs.isfile fname

/-- The dispatch branch reached by `main` (lines 202-237), in source order,
first match wins. -/
inductive MainBranch where
  | indexFile
  | dirWithIndex
  | dirWithoutIndex
  | singleFile
  | unsupported
  deriving DecidableEq, Repr

/-- The classification performed by the `if/elif` chain of `main`
(lines 202-237), evaluated against the filesystem state after the
pre-flight. -/
def classify (fs : FS) (input_path : String) : MainBranch :=
  if isDICOMDIR fs input_path && fs.isfile input_path then .indexFile
  else if fs.isdir input_path && isDICOMDIR fs (osJoin input_path "DICOMDIR") then .dirWithIndex
  else if fs.isdir input_path && !(isDICOMDIR fs (osJoin input_path "DICOMDIR")) then .dirWithoutIndex
  else if fs.isfile input_path then .singleFile
  else .unsupported

/-- The pre-flight of `main` (lines 189-200): input-existence check, then the
output-path check, destructive reset of an existing output directory, and
creation of the output directory.  Returns the filesystem seen by the
dispatch, the effects performed, and the exception raised, if any. -/
def preflight (fs : FS) (input_path output_path : String) :
    FS × List Effect × Option Err :=
  if !(fs.pexists input_path) then (fs, [], some .notFound)
  else if fs.pexists output_path && !(fs.isdir output_path) then
    (fs, [], some .invalidOutput)
  else if fs.pexists output_path then
    (((fs.rmtree output_path).makedirs output_path),
      [Effect.rmtree output_path, Effect.makedirs output_path], none)
  else
    (fs.makedirs output_path, [Effect.makedirs output_path], none)

/-- The branch bodies of `main` (lines 202-237).  In the single-file branch
the write `instance.save_as(output_path)` is modelled with the POSIX
behaviour of opening a path for writing: it raises `IsADirectoryError` when
the path is a directory. -/
def dispatch (fs : FS) (input_path output_path : String) :
    List Effect × Option Err :=
  match classify fs input_path with
  | .indexFile =>
    match anonymiseDICOMDIR fs input_path output_path with
    | (some dd, es, none) => (es ++ [Effect.saveIndex (output_path ++ "/DICOMDIR") dd], none)
    | (_, es, err) => (es, err)
  | .dirWithIndex =>
    match anonymiseDICOMDIR fs (osJoin input_path "DICOMDIR") output_path with
    | (some dd, es, none) => (es ++ [Effect.saveIndex (output_path ++ "/DICOMDIR") dd], none)
    | (_, es, err) => (es, err)
  | .dirWithoutIndex => anonymiseDirectory fs input_path output_path
  | .singleFile =>
    match anonymiseImageFile fs input_path "REMOVED" "REMOVED" "99991231" with
    | .error e => ([], some e)
    | .ok d2 =>
      if fs.isdir output_path then ([], some .isADirectory)
      else ([Effect.save output_path d2], none)
  | .unsupported => ([], some .unsupportedInput)

/-- `main` (lines 176-239) after argument parsing: pre-flight, then dispatch
on the classification of the input path. -/
def main (fs : FS) (input_path output_path : String) :
    List Effect × Option Err :=
  match preflight fs input_path output_path with
  | (_, es, some e) => (es, some e)
  | (fs1, es, none) =>
    let r := dispatch fs1 input_path output_path
    (es ++ r.1, r.2)

/-! Injectivity of the decimal rendering `Nat.repr` (Python `str(i)`),
established through a structural description of `Nat.toDigitsCore` and a
decimal decoding round-trip. -/

/-- The decimal digit characters of `n`, most significant first. -/
def decDigits (n : Nat) : List Char :=
  if _h : n < 10 then [Nat.digitChar n]
  else
    have : n / 10 < n := Nat.div_lt_self (by omega) (by omega)
    decDigits (n / 10) ++ [Nat.digitChar (n % 10)]

lemma toDigitsCore_eq_decDigits (fuel : Nat) :
    ∀ (n : Nat) (ds : List Char), n < fuel →
      Nat.toDigitsCore 10 fuel n ds = decDigits n ++ ds := by
  induction fuel with
  | zero => intro n ds h; omega
  | succ f ih =>
    intro n ds h
    by_cases h10 : n / 10 = 0
    · have hn : n < 10 := by omega
      rw [Nat.toDigitsCore, if_pos h10, decDigits, dif_pos hn,
        Nat.mod_eq_of_lt hn, List.singleton_append]
    · have hn : ¬ n < 10 := by omega
      have hlt : n / 10 < f := by
        have hds : n / 10 < n := Nat.div_lt_self (by omega) (by omega)
        omega
      rw [Nat.toDigitsCore, if_neg h10, ih (n / 10) _ hlt]
      conv_rhs => rw [decDigits]
      rw [dif_neg hn, List.append_assoc, List.singleton_append]

lemma toDigits_eq_decDigits (n : Nat) : Nat.toDigits 10 n = decDigits n := by
  rw [Nat.toDigits, toDigitsCore_eq_decDigits (n + 1) n [] (Nat.lt_succ_self n),
    List.append_nil]

lemma digitChar_toNat (n : Nat) (h : n < 10) : (Nat.digitChar n).toNat = 48 + n := by
  interval_cases n <;> decide

/-- Decimal decoding of a digit-character list. -/
def decValue (cs : List Char) : Nat :=
  cs.foldl (fun a c => a * 10 + (c.toNat - 48)) 0

lemma foldl_decDigits (n : Nat) :
    ∀ a : Nat, List.foldl (fun x c => x * 10 + (c.toNat - 48)) a (decDigits n)
      = a * 10 ^ (decDigits n).length + n := by
  induction n using Nat.strong_induction_on with
  | _ n ih =>
    intro a
    by_cases hn : n < 10
    · rw [decDigits, dif_pos hn]
      simp [digitChar_toNat n hn, Nat.add_sub_cancel_left]
    · have hdiv : n / 10 < n := Nat.div_lt_self (by omega) (by omega)
      rw [decDigits, dif_neg hn, List.foldl_append, ih (n / 10) hdiv a]
      have hmod : n % 10 < 10 := Nat.mod_lt _ (by omega)
      simp only [List.foldl, List.length_append, List.length_singleton,
        digitChar_toNat _ hmod, Nat.pow_succ, Nat.add_sub_cancel_left]
      have h2 : n / 10 * 10 + n % 10 = n := by omega
      calc (a * 10 ^ (decDigits (n / 10)).length + n / 10) * 10 + n % 10
          = a * (10 ^ (decDigits (n / 10)).length * 10) + (n / 10 * 10 + n % 10) := by
            ring
        _ = a * (10 ^ (decDigits (n / 10)).length * 10) + n := by rw [h2]

lemma decValue_decDigits (n : Nat) : decValue (decDigits n) = n := by
  have h := foldl_decDigits n 0
  simpa [decValue] using h

lemma decDigits_injective : Function.Injective decDigits := by
  intro a b h
  rw [← decValue_decDigits a, ← decValue_decDigits b, h]

lemma natRepr_injective : Function.Injective Nat.repr := by
  intro a b h
  apply decDigits_injective
  rw [← toDigits_eq_decDigits, ← toDigits_eq_decDigits]
  exact congrArg String.data h

lemma string_append_cancel_left (a b c : String) (h : a ++ b = a ++ c) : b = c := by
  apply String.ext
  have hd : a.data ++ b.data = a.data ++ c.data := by
    rw [← String.data_append, ← String.data_append, h]
  exact List.append_cancel_left hd

/-- With more than one patient, distinct ordinals yield distinct replacement
identifiers. -/
lemma newIdentity_fst_inj (count i j : Nat) (hc : count > 1) (hij : i ≠ j) :
    (newIdentity count i).1 ≠ (newIdentity count j).1 := by
  simp only [newIdentity, if_pos hc]
  intro h
  exact hij (natRepr_injective (string_append_cancel_left _ _ _ h))

/-- Complete characterisation of a successful run of the field assignments:
it succeeds exactly when the six unconditionally assigned tags are present,
and the result is the input with the nine identifying tags overwritten. -/
lemma anonymiseDataset_ok_iff (d : DicomDataset) (pid pname pbdate : String)
    (d2 : DicomDataset) :
    anonymiseDataset d pid pname pbdate = .ok d2 ↔
      ((d.PatientID.isSome ∧ d.PatientName.isSome ∧ d.PatientBirthDate.isSome ∧
        d.InstitutionName.isSome ∧ d.InstitutionAddress.isSome ∧ d.StationName.isSome) ∧
       d2 = { d with
              PatientID := some pid
              PatientName := some pname
              PatientBirthDate := some pbdate
              InstitutionName := some "REMOVED"
              InstitutionAddress := some "REMOVED"
              StationName := some "REMOVED"
              ReferringPhysicianName := d.ReferringPhysicianName.map (fun _ => "REMOVED")
              PhysiciansOfRecord := d.PhysiciansOfRecord.map (fun _ => "REMOVED")
              RequestingPhysician := d.RequestingPhysician.map (fun _ => "REMOVED") }) := by
  cases h1 : d.PatientID <;> cases h2 : d.PatientName <;> cases h3 : d.PatientBirthDate <;>
    cases h4 : d.InstitutionName <;> cases h5 : d.InstitutionAddress <;>
    cases h6 : d.StationName <;>
    simp [anonymiseDataset, setRequired, h1, h2, h3, h4, h5, h6, Bind.bind, Except.bind,
      eq_comm]

/-- Fixture: a dataset carrying all nine identifying tags plus an opaque tag. -/
def dFix : DicomDataset :=
  ⟨some "p", some "n", some "b", some "i", some "a", some "s", some "r", none, some "q",
    [((1, 2), "x")]⟩

/-- Fixture: a filesystem holding the single regular file `in.dcm`. -/
def fsFix : FS :=
  { pexists := fun p => p == "in.dcm"
    isfile := fun p => p == "in.dcm"
    isdir := fun _ => false
    content := fun p => if p == "in.dcm" then some dFix else none
    indexContent := fun _ => none
    dirTree := fun _ => .node [] [] }

/-- C1: every image record read by `anonymiseImageFile` comes back with
PatientID, PatientName and PatientBirthDate set to the three given
replacement values and InstitutionName, InstitutionAddress and StationName
set to "REMOVED"; the three optional tags (0008,0090), (0008,1048) and
(0032,1032) are set to "REMOVED" exactly when present in the input, and
their absence does not make the call fail. -/
theorem anonymiseImageFile_sets_identity_fields (fs : FS) (fname : String)
    (pid pname pbdate : String) (d : DicomDataset)
    (hread : fs.content fname = some d) :
    ((d.PatientID.isSome ∧ d.PatientName.isSome ∧ d.PatientBirthDate.isSome ∧
      d.InstitutionName.isSome ∧ d.InstitutionAddress.isSome ∧ d.StationName.isSome) →
      ∃ d2, anonymiseImageFile fs fname pid pname pbdate = .ok d2) ∧
    (∀ d2, anonymiseImageFile fs fname pid pname pbdate = .ok d2 →
      d2.PatientID = some pid ∧ d2.PatientName = some pname ∧
      d2.PatientBirthDate = some pbdate ∧
      d2.InstitutionName = some "REMOVED" ∧ d2.InstitutionAddress = some "REMOVED" ∧
      d2.StationName = some "REMOVED" ∧
      d2.ReferringPhysicianName = d.ReferringPhysicianName.map (fun _ => "REMOVED") ∧
      d2.PhysiciansOfRecord = d.PhysiciansOfRecord.map (fun _ => "REMOVED") ∧
      d2.RequestingPhysician = d.RequestingPhysician.map (fun _ => "REMOVED")) := by
  constructor
  · intro hsome
    simp only [anonymiseImageFile, hread, anonymiseContent]
    exact ⟨_, (anonymiseDataset_ok_iff d pid pname pbdate _).2 ⟨hsome, rfl⟩⟩
  · intro d2 h
    simp only [anonymiseImageFile, hread, anonymiseContent] at h
    obtain ⟨-, rfl⟩ := (anonymiseDataset_ok_iff d pid pname pbdate d2).1 h
    exact ⟨rfl, rfl, rfl, rfl, rfl, rfl, rfl, rfl, rfl⟩

/-- Witness for C1 on the fixture file. -/
theorem anonymiseImageFile_sets_identity_fields_witness :
    fsFix.content "in.dcm" = some dFix ∧
    (∃ d2, anonymiseImageFile fsFix "in.dcm" "ID" "NM" "BD" = .ok d2) :=
  ⟨rfl,
    (anonymiseImageFile_sets_identity_fields fsFix "in.dcm" "ID" "NM" "BD" dFix rfl).1
      (by simp [dFix])⟩

/-- C3: `anonymiseImageFile` changes no field other than the nine listed
identifying fields: the opaque remainder of the dataset (pixel data,
study/series UIDs, acquisition parameters) is returned unchanged. -/
theorem anonymiseImageFile_frame (fs : FS) (fname : String)
    (pid pname pbdate : String) (d d2 : DicomDataset)
    (hread : fs.content fname = some d)
    (h : anonymiseImageFile fs fname pid pname pbdate = .ok d2) :
    d2.other = d.other := by
  simp only [anonymiseImageFile, hread, anonymiseContent] at h
  obtain ⟨-, rfl⟩ := (anonymiseDataset_ok_iff d pid pname pbdate d2).1 h
  rfl

/-- Witness for C3 on the fixture file. -/
theorem anonymiseImageFile_frame_witness :
    fsFix.content "in.dcm" = some dFix ∧
    anonymiseImageFile fsFix "in.dcm" "ID" "NM" "BD" =
      .ok { dFix with
            PatientID := some "ID", PatientName := some "NM", PatientBirthDate := some "BD",
            InstitutionName := some "REMOVED", InstitutionAddress := some "REMOVED",
            StationName := some "REMOVED", ReferringPhysicianName := some "REMOVED",
            RequestingPhysician := some "REMOVED" } ∧
    ({ dFix with
       PatientID := some "ID", PatientName := some "NM", PatientBirthDate := some "BD",
       InstitutionName := some "REMOVED", InstitutionAddress := some "REMOVED",
       StationName := some "REMOVED", ReferringPhysicianName := some "REMOVED",
       RequestingPhysician := some "REMOVED" } : DicomDataset).other = dFix.other :=
  ⟨rfl, rfl, anonymiseImageFile_frame fsFix "in.dcm" "ID" "NM" "BD" dFix _ rfl rfl⟩

/-- C4: anonymisation is idempotent: reading back a record produced by
`anonymiseImageFile` and anonymising it again with the same replacement
identity succeeds and returns the record unchanged. -/
theorem anonymiseImageFile_idempotent (fs fs2 : FS) (fname fname2 : String)
    (pid pname pbdate : String) (d2 : DicomDataset)
    (h : anonymiseImageFile fs fname pid pname pbdate = .ok d2)
    (hread2 : fs2.content fname2 = some d2) :
    anonymiseImageFile fs2 fname2 pid pname pbdate = .ok d2 := by
  simp only [anonymiseImageFile, hread2, anonymiseContent]
  cases hc : fs.content fname with
  | none =>
    simp only [anonymiseImageFile, hc, anonymiseContent] at h
    exact absurd h (by simp)
  | some d =>
    simp only [anonymiseImageFile, hc, anonymiseContent] at h
    obtain ⟨-, rfl⟩ := (anonymiseDataset_ok_iff d pid pname pbdate d2).1 h
    apply (anonymiseDataset_ok_iff _ pid pname pbdate _).2
    refine ⟨by simp, ?_⟩
    cases hr : d.ReferringPhysicianName <;> cases hp : d.PhysiciansOfRecord <;>
      cases hq : d.RequestingPhysician <;> simp [hr, hp, hq]

/-- Witness for C4 on the fixture file. -/
theorem anonymiseImageFile_idempotent_witness :
    anonymiseImageFile
      { fsFix with
        content := fun p =>
          if p == "anon.dcm" then
            some { dFix with
                   PatientID := some "ID", PatientName := some "NM",
                   PatientBirthDate := some "BD",
                   InstitutionName := some "REMOVED", InstitutionAddress := some "REMOVED",
                   StationName := some "REMOVED", ReferringPhysicianName := some "REMOVED",
                   RequestingPhysician := some "REMOVED" }
          else none }
      "anon.dcm" "ID" "NM" "BD" =
      .ok { dFix with
            PatientID := some "ID", PatientName := some "NM", PatientBirthDate := some "BD",
            InstitutionName := some "REMOVED", InstitutionAddress := some "REMOVED",
            StationName := some "REMOVED", ReferringPhysicianName := some "REMOVED",
            RequestingPhysician := some "REMOVED" } :=
  anonymiseImageFile_idempotent fsFix _ "in.dcm" "anon.dcm" "ID" "NM" "BD" _ rfl rfl

instance : Inhabited PatientRecord := ⟨⟨none, none, none, []⟩⟩

/-- Every dataset saved by `anonymiseImageFile` carries the replacement
identity it was called with. -/
lemma anonymiseImageFile_ok_fields (fs : FS) (fname a b c : String) (d2 : DicomDataset)
    (h : anonymiseImageFile fs fname a b c = .ok d2) :
    d2.PatientID = some a ∧ d2.PatientName = some b ∧ d2.PatientBirthDate = some c := by
  rw [anonymiseImageFile] at h
  cases hc : fs.content fname with
  | none => simp only [hc, anonymiseContent] at h; exact absurd h (by simp)
  | some d =>
    simp only [hc, anonymiseContent] at h
    obtain ⟨-, rfl⟩ := (anonymiseDataset_ok_iff d a b c d2).1 h
    exact ⟨rfl, rfl, rfl⟩

/-- Saves produced by `runList` all come from the per-element function. -/
lemma runList_saves {α : Type} (f : α → List Effect × Option Err)
    (P : String → DicomDataset → Prop)
    (hf : ∀ a pth d2, Effect.save pth d2 ∈ (f a).1 → P pth d2) :
    ∀ (l : List α) (pth : String) (d2 : DicomDataset),
      Effect.save pth d2 ∈ (runList f l).1 → P pth d2 := by
  intro l
  induction l with
  | nil => intro pth d2 h; simp [runList] at h
  | cons a as ih =>
    intro pth d2 h
    rw [runList] at h
    cases he : (f a).2 with
    | some e =>
      simp only [he] at h
      exact hf a pth d2 h
    | none =>
      simp only [he, List.mem_append] at h
      rcases h with h1 | h2
      · exact hf a pth d2 h1
      · exact ih pth d2 h2

lemma processImagePath_saves (fs : FS) (dddir outp : String)
    (idn : String × String × String) (segs : List String) (pth : String) (d2 : DicomDataset)
    (h : Effect.save pth d2 ∈ (processImagePath fs dddir outp idn segs).1) :
    d2.PatientID = some idn.1 ∧ d2.PatientName = some idn.2.1 ∧
    d2.PatientBirthDate = some idn.2.2 := by
  simp only [processImagePath] at h
  by_cases hf : fs.isfile (imageSourcePath dddir segs)
  · rw [if_pos hf] at h
    cases ha : anonymiseImageFile fs (imageSourcePath dddir segs) idn.1 idn.2.1 idn.2.2 with
    | error e => simp [ha] at h
    | ok dres =>
      simp only [ha, List.mem_cons, List.mem_singleton] at h
      rcases h with h | h | h
      · exact absurd h (by simp)
      · obtain ⟨-, rfl⟩ := Effect.save.inj h.symm
        exact anonymiseImageFile_ok_fields fs _ idn.1 idn.2.1 idn.2.2 dres ha
      · simp at h
  · rw [if_neg hf] at h
    simp at h

lemma processSeries_saves (fs : FS) (dddir outp : String)
    (idn : String × String × String) (series : DirRecord) (pth : String) (d2 : DicomDataset)
    (h : Effect.save pth d2 ∈ (processSeries fs dddir outp idn series).1) :
    d2.PatientID = some idn.1 ∧ d2.PatientName = some idn.2.1 ∧
    d2.PatientBirthDate = some idn.2.2 := by
  simp only [processSeries] at h
  cases hm : mapExcept DirRecord.referencedSegs (series.children.filter
      (fun r => r.directoryRecordType == "IMAGE")) with
  | error e => simp [hm] at h
  | ok paths =>
    simp only [hm] at h
    exact runList_saves _ _ (fun segs pth2 dd2 hh =>
      processImagePath_saves fs dddir outp idn segs pth2 dd2 hh) paths pth d2 h

lemma processStudy_saves (fs : FS) (dddir outp : String)
    (idn : String × String × String) (study : DirRecord) (pth : String) (d2 : DicomDataset)
    (h : Effect.save pth d2 ∈ (processStudy fs dddir outp idn study).1) :
    d2.PatientID = some idn.1 ∧ d2.PatientName = some idn.2.1 ∧
    d2.PatientBirthDate = some idn.2.2 := by
  simp only [processStudy] at h
  exact runList_saves _ _ (fun series pth2 dd2 hh =>
    processSeries_saves fs dddir outp idn series pth2 dd2 hh) _ pth d2 h

lemma anonPatientFields_ok (p : PatientRecord) (a b c : String) (p1 : PatientRecord)
    (h : anonPatientFields p a b c = .ok p1) :
    p1.PatientID = some a ∧ p1.PatientName = some b ∧ p1.PatientBirthDate = some c := by
  cases h1 : p.PatientID with
  | none => simp [anonPatientFields, setRequired, h1, Bind.bind, Except.bind] at h
  | some v1 =>
    cases h2 : p.PatientName with
    | none => simp [anonPatientFields, setRequired, h1, h2, Bind.bind, Except.bind] at h
    | some v2 =>
      cases h3 : p.PatientBirthDate with
      | none => simp [anonPatientFields, setRequired, h1, h2, h3, Bind.bind, Except.bind] at h
      | some v3 =>
        simp only [anonPatientFields, setRequired, h1, h2, h3, Bind.bind, Except.bind,
          Except.ok.injEq] at h
        subst h
        exact ⟨rfl, rfl, rfl⟩

lemma processPatient_ok_fields (fs : FS) (dddir outp : String) (count i : Nat)
    (p : PatientRecord)
    (h : (processPatient fs dddir outp count i p).2.2 = none) :
    (processPatient fs dddir outp count i p).1.PatientID
        = some (newIdentity count i).1 ∧
    (processPatient fs dddir outp count i p).1.PatientName
        = some (newIdentity count i).2.1 ∧
    (processPatient fs dddir outp count i p).1.PatientBirthDate
        = some (newIdentity count i).2.2 := by
  cases haf : anonPatientFields p (newIdentity count i).1 (newIdentity count i).2.1
      (newIdentity count i).2.2 with
  | error e =>
    simp only [processPatient, haf] at h
    exact absurd h (by simp)
  | ok p1 =>
    simp only [processPatient, haf]
    exact anonPatientFields_ok p _ _ _ p1 haf

lemma processPatient_saves (fs : FS) (dddir outp : String) (count i : Nat)
    (p : PatientRecord) (pth : String) (d2 : DicomDataset)
    (h : Effect.save pth d2 ∈ (processPatient fs dddir outp count i p).2.1) :
    d2.PatientID = some (newIdentity count i).1 ∧
    d2.PatientName = some (newIdentity count i).2.1 ∧
    d2.PatientBirthDate = some (newIdentity count i).2.2 := by
  cases haf : anonPatientFields p (newIdentity count i).1 (newIdentity count i).2.1
      (newIdentity count i).2.2 with
  | error e => simp [processPatient, haf] at h
  | ok p1 =>
    simp only [processPatient, haf] at h
    exact runList_saves _ _ (fun study pth2 dd2 hh =>
      processStudy_saves fs dddir outp _ study pth2 dd2 hh) _ pth d2 h

lemma newIdentity_birthdate (count i : Nat) : (newIdentity count i).2.2 = "99991231" := by
  rw [newIdentity]; split <;> rfl

lemma newIdentity_name_eq_id (count i : Nat) :
    (newIdentity count i).2.1 = (newIdentity count i).1 := by
  rw [newIdentity]; split <;> rfl

/-- Success of the patient loop yields one effect block per patient, with the
`j`-th output record and block produced by `processPatient` at ordinal
`i0 + j`. -/
lemma runPatients_ok (fs : FS) (dddir outp : String) (count : Nat) :
    ∀ (ps : List PatientRecord) (i0 : Nat),
      (runPatients fs dddir outp count i0 ps).2.2 = none →
      ∃ ess : List (List Effect),
        ess.length = ps.length ∧
        (runPatients fs dddir outp count i0 ps).1.length = ps.length ∧
        (runPatients fs dddir outp count i0 ps).2.1 = ess.flatten ∧
        ∀ j, j < ps.length →
          processPatient fs dddir outp count (i0 + j) (ps.getD j default)
            = ((runPatients fs dddir outp count i0 ps).1.getD j default,
               ess.getD j [], none) := by
  intro ps
  induction ps with
  | nil =>
    intro i0 _
    exact ⟨[], rfl, rfl, rfl, fun j hj => absurd hj (Nat.not_lt_zero j)⟩
  | cons p ps ih =>
    intro i0 h
    rw [runPatients] at h
    cases hpe : (processPatient fs dddir outp count i0 p).2.2 with
    | some e =>
      simp only [hpe] at h
      exact absurd h (by simp)
    | none =>
      simp only [hpe] at h
      obtain ⟨ess, h1, h2, h3, h4⟩ := ih (i0 + 1) h
      refine ⟨(processPatient fs dddir outp count i0 p).2.1 :: ess, by simp [h1], ?_, ?_, ?_⟩
      · simp only [runPatients, hpe, List.length_cons, h2]
      · simp only [runPatients, hpe, List.flatten_cons, h3]
      · intro j hj
        cases j with
        | zero =>
          simp only [runPatients, hpe, Nat.add_zero, List.getD_cons_zero]
          exact Prod.ext rfl (Prod.ext rfl hpe)
        | succ k =>
          have hk : k < ps.length := by
            simp only [List.length_cons] at hj
            omega
          have harith : i0 + (k + 1) = (i0 + 1) + k := by omega
          simp only [runPatients, hpe, harith, List.getD_cons_succ]
          exact h4 k hk

/-- Fixture index: two patients, each owning one study/series/image; the
second patient's referenced file is absent from disk. -/
def ddFix : DicomDir :=
  ⟨[⟨some "P1", some "N1", some "D1",
      [.mk "STUDY" none [.mk "SERIES" none [.mk "IMAGE" (some (.single "f1")) []]]]⟩,
    ⟨some "P2", some "N2", some "D2",
      [.mk "STUDY" none [.mk "SERIES" none [.mk "IMAGE" (some (.multi ["d", "f2"])) []]]]⟩]⟩

/-- Fixture filesystem for index mode, rooted at `root`. -/
def fsIdx : FS :=
  { pexists := fun p => p == "root/DICOMDIR" || p == "root/f1"
    isfile := fun p => p == "root/DICOMDIR" || p == "root/f1"
    isdir := fun p => p == "root"
    content := fun p => if p == "root/f1" then some dFix else none
    indexContent := fun p => if p == "root/DICOMDIR" then some ddFix else none
    dirTree := fun _ => .node [] [] }

/-- The index returned by the fixture run. -/
def ddOutFix : DicomDir :=
  ⟨[⟨some "REMOVED - 0", some "REMOVED - 0", some "99991231",
      [.mk "STUDY" none [.mk "SERIES" none [.mk "IMAGE" (some (.single "f1")) []]]]⟩,
    ⟨some "REMOVED - 1", some "REMOVED - 1", some "99991231",
      [.mk "STUDY" none [.mk "SERIES" none [.mk "IMAGE" (some (.multi ["d", "f2"])) []]]]⟩]⟩

/-- The effect trace of the fixture run. -/
def esFix : List Effect :=
  [Effect.makedirs "out/",
   Effect.save "out/f1"
     ⟨some "REMOVED - 0", some "REMOVED - 0", some "99991231", some "REMOVED", some "REMOVED",
      some "REMOVED", some "REMOVED", none, some "REMOVED", [((1, 2), "x")]⟩,
   Effect.makedirs "out/d"]

/-- C2: in a successful index-mode run over `N` patients, the `i`-th output
patient record and every image saved while processing it carry the
replacement identity `newIdentity N i`; that identity is
`"REMOVED - i"` (ID and name) when `N > 1` and exactly `"REMOVED"` when
`N = 1`, with birth date `"99991231"` in both cases; and for `N > 1` the
replacement identifiers of distinct ordinals are distinct. -/
theorem anonymiseDICOMDIR_patient_identities (fs : FS) (fname outp : String)
    (dd dd2 : DicomDir) (es : List Effect)
    (hidx : fs.indexContent fname = some dd)
    (h : anonymiseDICOMDIR fs fname outp = (some dd2, es, none)) :
    dd2.patient_records.length = dd.patient_records.length ∧
    (∀ i, i < dd.patient_records.length →
      (dd2.patient_records.getD i default).PatientID
          = some (newIdentity dd.patient_records.length i).1 ∧
      (dd2.patient_records.getD i default).PatientName
          = some (newIdentity dd.patient_records.length i).1 ∧
      (dd2.patient_records.getD i default).PatientBirthDate = some "99991231") ∧
    (∃ ess : List (List Effect),
      ess.length = dd.patient_records.length ∧ es = ess.flatten ∧
      ∀ i, i < dd.patient_records.length →
        processPatient fs (osSplit fname).1 outp dd.patient_records.length i
            (dd.patient_records.getD i default)
          = (dd2.patient_records.getD i default, ess.getD i [], none) ∧
        ∀ pth d2, Effect.save pth d2 ∈ ess.getD i [] →
          d2.PatientID = some (newIdentity dd.patient_records.length i).1 ∧
          d2.PatientName = some (newIdentity dd.patient_records.length i).1 ∧
          d2.PatientBirthDate = some "99991231") ∧
    (dd.patient_records.length > 1 →
      ∀ i, (newIdentity dd.patient_records.length i).1 = "REMOVED - " ++ Nat.repr i) ∧
    (dd.patient_records.length = 1 →
      ∀ i, (newIdentity dd.patient_records.length i).1 = "REMOVED") ∧
    (∀ i j, i ≠ j → dd.patient_records.length > 1 →
      (newIdentity dd.patient_records.length i).1
        ≠ (newIdentity dd.patient_records.length j).1) := by
  have hun : anonymiseDICOMDIR fs fname outp =
      (some { patient_records :=
          (runPatients fs (osSplit fname).1 outp dd.patient_records.length 0
            dd.patient_records).1 },
       (runPatients fs (osSplit fname).1 outp dd.patient_records.length 0
         dd.patient_records).2.1,
       (runPatients fs (osSplit fname).1 outp dd.patient_records.length 0
         dd.patient_records).2.2) := by
    simp only [anonymiseDICOMDIR, hidx]
  rw [hun] at h
  simp only [Prod.mk.injEq, Option.some.injEq] at h
  obtain ⟨hdd2, hes, hnone⟩ := h
  subst hdd2
  subst hes
  obtain ⟨ess, hl1, hl2, hfl, hproc⟩ :=
    runPatients_ok fs (osSplit fname).1 outp dd.patient_records.length
      dd.patient_records 0 hnone
  refine ⟨hl2, ?_, ⟨ess, hl1, hfl, ?_⟩, ?_, ?_, ?_⟩
  · intro i hi
    have heq := hproc i hi
    rw [Nat.zero_add] at heq
    have hfields := processPatient_ok_fields fs (osSplit fname).1 outp
      dd.patient_records.length i (dd.patient_records.getD i default) (by rw [heq])
    rw [heq, newIdentity_name_eq_id, newIdentity_birthdate] at hfields
    exact hfields
  · intro i hi
    have heq := hproc i hi
    rw [Nat.zero_add] at heq
    refine ⟨heq, ?_⟩
    intro pth d2 hmem
    have hmem2 : Effect.save pth d2 ∈ (processPatient fs (osSplit fname).1 outp
        dd.patient_records.length i (dd.patient_records.getD i default)).2.1 := by
      rw [heq]
      exact hmem
    have hsv := processPatient_saves fs (osSplit fname).1 outp
      dd.patient_records.length i (dd.patient_records.getD i default) pth d2 hmem2
    rw [newIdentity_name_eq_id, newIdentity_birthdate] at hsv
    exact hsv
  · intro hgt i
    simp [newIdentity, hgt]
  · intro hone i
    rw [hone]
    simp [newIdentity]
  · intro i j hij hgt
    exact newIdentity_fst_inj dd.patient_records.length i j hgt hij

/-- Witness for C2 on the two-patient fixture index. -/
theorem anonymiseDICOMDIR_patient_identities_witness :
    fsIdx.indexContent "root/DICOMDIR" = some ddFix ∧
    anonymiseDICOMDIR fsIdx "root/DICOMDIR" "out" = (some ddOutFix, esFix, none) ∧
    (ddOutFix.patient_records.getD 0 default).PatientID
        = some (newIdentity ddFix.patient_records.length 0).1 ∧
    (newIdentity ddFix.patient_records.length 0).1 = "REMOVED - 0" :=
  ⟨rfl, rfl,
   ((anonymiseDICOMDIR_patient_identities fsIdx "root/DICOMDIR" "out" ddFix ddOutFix
       esFix rfl rfl).2.1 0 (by decide)).1,
   (anonymiseDICOMDIR_patient_identities fsIdx "root/DICOMDIR" "out" ddFix ddOutFix
       esFix rfl rfl).2.2.2.1 (by decide) 0⟩

/-- C5: the per-path loop body on a referenced image whose resolved source
path is not a file on disk: the mirrored output directory is still created,
no exception is raised, no file is saved, and the traversal continues over
the remaining referenced images unchanged. -/
theorem missing_source_skipped (fs : FS) (dddir outp : String)
    (idn : String × String × String) (segs : List String)
    (hmiss : fs.isfile (imageSourcePath dddir segs) = false) :
    processImagePath fs dddir outp idn segs
      = ([Effect.makedirs (imageOutputDir outp segs)], none) ∧
    (∀ rest : List (List String),
      runList (processImagePath fs dddir outp idn) (segs :: rest)
        = (Effect.makedirs (imageOutputDir outp segs)
             :: (runList (processImagePath fs dddir outp idn) rest).1,
           (runList (processImagePath fs dddir outp idn) rest).2)) := by
  have h1 : processImagePath fs dddir outp idn segs
      = ([Effect.makedirs (imageOutputDir outp segs)], none) := by
    simp [processImagePath, hmiss]
  refine ⟨h1, ?_⟩
  intro rest
  rw [runList, h1]
  rfl

/-- Witness for C5: the second fixture patient's referenced file is absent. -/
theorem missing_source_skipped_witness :
    fsIdx.isfile (imageSourcePath "root" ["d", "f2"]) = false ∧
    processImagePath fsIdx "root" "out" ("X", "Y", "Z") ["d", "f2"]
      = ([Effect.makedirs (imageOutputDir "out" ["d", "f2"])], none) :=
  ⟨rfl, (missing_source_skipped fsIdx "root" "out" ("X", "Y", "Z") ["d", "f2"] rfl).1⟩

/-- Saves produced by `runList` all come from some element of the list. -/
lemma runList_saves_mem {α : Type} (f : α → List Effect × Option Err)
    (P : String → DicomDataset → Prop) (l : List α)
    (hf : ∀ a ∈ l, ∀ pth d2, Effect.save pth d2 ∈ (f a).1 → P pth d2) :
    ∀ (pth : String) (d2 : DicomDataset),
      Effect.save pth d2 ∈ (runList f l).1 → P pth d2 := by
  induction l with
  | nil => intro pth d2 h; simp [runList] at h
  | cons a as ih =>
    intro pth d2 h
    rw [runList] at h
    cases he : (f a).2 with
    | some e =>
      simp only [he] at h
      exact hf a (List.mem_cons_self a as) pth d2 h
    | none =>
      simp only [he, List.mem_append] at h
      rcases h with h1 | h2
      · exact hf a (List.mem_cons_self a as) pth d2 h1
      · exact ih (fun b hb => hf b (List.mem_cons_of_mem a hb)) pth d2 h2

/-- A save from a leaf file is the anonymised file at its mirrored path. -/
lemma processLeafFile_saves (fs : FS) (dirpath outdir name : String)
    (pth : String) (d2 : DicomDataset)
    (h : Effect.save pth d2 ∈ (processLeafFile fs dirpath outdir name).1) :
    pth = osJoin outdir name ∧
    anonymiseImageFile fs (osJoin dirpath name) "REMOVED" "REMOVED" "99991231" = .ok d2 := by
  simp only [processLeafFile] at h
  cases ha : anonymiseImageFile fs (osJoin dirpath name) "REMOVED" "REMOVED" "99991231" with
  | error e => simp [ha] at h
  | ok dres =>
    simp only [ha, List.mem_singleton] at h
    obtain ⟨h1, h2⟩ := Effect.save.inj h
    exact ⟨h1, by rw [h2]⟩

/-- C6: a directory node is processed for its direct files exactly when it
has at least one file and no subdirectory; such a leaf node's files are
anonymised with the fixed sentinel identity and saved under the node's
mirrored output directory, while empty or mixed nodes contribute nothing of
their own, the walk just descending into their subdirectories. -/
theorem anonymiseDirectory_leaf_only (fs : FS) (dirpath outp rel : String)
    (files : List (String × Option DicomDataset)) (subdirs : List (String × DirTree)) :
    (files ≠ [] ∧ subdirs = [] →
      anonWalk fs dirpath outp rel (.node files subdirs)
        = (Effect.makedirs (osJoin outp rel)
             :: (runList (processLeafFile fs dirpath (osJoin outp rel))
                  (files.map Prod.fst)).1,
           (runList (processLeafFile fs dirpath (osJoin outp rel))
             (files.map Prod.fst)).2)) ∧
    (files = [] ∨ subdirs ≠ [] →
      anonWalk fs dirpath outp rel (.node files subdirs)
        = anonWalkList fs dirpath outp rel subdirs) ∧
    (∀ pth d2,
      Effect.save pth d2 ∈ (runList (processLeafFile fs dirpath (osJoin outp rel))
          (files.map Prod.fst)).1 →
      ∃ name, name ∈ files.map Prod.fst ∧ pth = osJoin (osJoin outp rel) name ∧
        anonymiseImageFile fs (osJoin dirpath name) "REMOVED" "REMOVED" "99991231"
          = .ok d2 ∧
        d2.PatientID = some "REMOVED" ∧ d2.PatientName = some "REMOVED" ∧
        d2.PatientBirthDate = some "99991231") := by
  refine ⟨?_, ?_, ?_⟩
  · rintro ⟨hf, rfl⟩
    have hlen : 0 < files.length := List.length_pos.2 hf
    rw [anonWalk]
    cases hr : (runList (processLeafFile fs dirpath (osJoin outp rel))
        (files.map Prod.fst)).2 with
    | some e =>
      simp [hr, hlen, anonWalkList]
    | none =>
      simp [hr, hlen, anonWalkList]
  · intro hcase
    rw [anonWalk]
    have hcond : (decide (0 < files.length) && (subdirs.length == 0)) = false := by
      rcases hcase with hfe | hse
      · subst hfe; simp
      · have hz : subdirs.length ≠ 0 := fun hez => hse (List.length_eq_zero.1 hez)
        simp [hz]
    simp only [hcond]
    simp
  · intro pth d2 h
    refine runList_saves_mem _
      (fun pth3 d3 => ∃ name, name ∈ files.map Prod.fst ∧
        pth3 = osJoin (osJoin outp rel) name ∧
        anonymiseImageFile fs (osJoin dirpath name) "REMOVED" "REMOVED" "99991231"
          = .ok d3 ∧
        d3.PatientID = some "REMOVED" ∧ d3.PatientName = some "REMOVED" ∧
        d3.PatientBirthDate = some "99991231")
      (files.map Prod.fst) ?_ pth d2 h
    intro name hname pth2 dd2 hmem
    obtain ⟨h1, h2⟩ := processLeafFile_saves fs dirpath (osJoin outp rel) name pth2 dd2 hmem
    obtain ⟨f1, f2, f3⟩ := anonymiseImageFile_ok_fields fs (osJoin dirpath name)
      "REMOVED" "REMOVED" "99991231" dd2 h2
    exact ⟨name, hname, h1, h2, f1, f2, f3⟩

/-- Fixture filesystem for directory mode: `in` is a leaf directory holding
the single readable file `g1.dcm`. -/
def fsDir : FS :=
  { pexists := fun p => p == "in" || p == "in/g1.dcm"
    isfile := fun p => p == "in/g1.dcm"
    isdir := fun p => p == "in"
    content := fun p => if p == "in/g1.dcm" then some dFix else none
    indexContent := fun _ => none
    dirTree := fun p => if p == "in" then .node [("g1.dcm", some dFix)] [] else .node [] [] }

/-- Witness for C6 on the one-file leaf fixture. -/
theorem anonymiseDirectory_leaf_only_witness :
    (([("g1.dcm", some dFix)] : List (String × Option DicomDataset)) ≠ [] ∧
      ([] : List (String × DirTree)) = []) ∧
    anonWalk fsDir "in" "out" "." (.node [("g1.dcm", some dFix)] [])
      = (Effect.makedirs (osJoin "out" ".")
           :: (runList (processLeafFile fsDir "in" (osJoin "out" "."))
                (([("g1.dcm", some dFix)] : List (String × Option DicomDataset)).map
                  Prod.fst)).1,
         (runList (processLeafFile fsDir "in" (osJoin "out" "."))
           (([("g1.dcm", some dFix)] : List (String × Option DicomDataset)).map
             Prod.fst)).2) :=
  ⟨⟨by simp, rfl⟩,
   (anonymiseDirectory_leaf_only fsDir "in" "out" "." [("g1.dcm", some dFix)] []).1
     ⟨by simp, rfl⟩⟩

/-- C7: the pre-flight of `main`: a missing input path raises NotFound before
any effect is performed; an existing non-directory output path raises
InvalidOutput with no effect performed; an existing output directory is
destructively removed and recreated empty, and only then does the dispatch
run, against exactly that reset filesystem. -/
theorem main_preflight (fs : FS) (input output : String) :
    (fs.pexists input = false → main fs input output = ([], some Err.notFound)) ∧
    (fs.pexists input = true → fs.pexists output = true → fs.isdir output = false →
      main fs input output = ([], some Err.invalidOutput)) ∧
    (fs.pexists input = true → fs.pexists output = true → fs.isdir output = true →
      preflight fs input output
          = ((fs.rmtree output).makedirs output,
             [Effect.rmtree output, Effect.makedirs output], none) ∧
      ((fs.rmtree output).makedirs output).isdir output = true ∧
      (∀ q, pathUnder output q = true →
        ((fs.rmtree output).makedirs output).pexists q = false ∧
        ((fs.rmtree output).makedirs output).isfile q = false ∧
        ((fs.rmtree output).makedirs output).content q = none) ∧
      main fs input output
          = ([Effect.rmtree output, Effect.makedirs output]
               ++ (dispatch ((fs.rmtree output).makedirs output) input output).1,
             (dispatch ((fs.rmtree output).makedirs output) input output).2)) := by
  refine ⟨?_, ?_, ?_⟩
  · intro h
    simp [main, preflight, h]
  · intro h1 h2 h3
    simp [main, preflight, h1, h2, h3]
  · intro h1 h2 h3
    have hq : ∀ q, pathUnder output q = true →
        ((fs.rmtree output).makedirs output).pexists q = false ∧
        ((fs.rmtree output).makedirs output).isfile q = false ∧
        ((fs.rmtree output).makedirs output).content q = none := by
      intro q hu
      have hne : (q == output) = false := by
        rw [beq_eq_false_iff_ne]
        intro hqe
        subst hqe
        have hp : (q ++ "/").data <+: q.data :=
          List.isPrefixOf_iff_prefix.1 hu
        have hlen : (q ++ "/").data.length ≤ q.data.length := hp.length_le
        simp [String.data_append] at hlen
      have hne2 : ¬ q = output := beq_eq_false_iff_ne.1 hne
      refine ⟨?_, ?_, ?_⟩ <;>
        simp [FS.makedirs, FS.rmtree, hne, hne2, hu]
    refine ⟨?_, ?_, hq, ?_⟩
    · simp [preflight, h1, h2, h3]
    · simp [FS.makedirs]
    · simp [main, preflight, h1, h2, h3]

/-- Witness for C7: the three pre-flight scenarios on concrete filesystems. -/
theorem main_preflight_witness :
    main fsFix "nope" "out" = ([], some Err.notFound) ∧
    main fsFix "in.dcm" "in.dcm" = ([], some Err.invalidOutput) ∧
    (((fsDir.rmtree "in").makedirs "in").isdir "in" = true ∧
      ((fsDir.rmtree "in").makedirs "in").pexists "in/g1.dcm" = false ∧
      main fsDir "in/g1.dcm" "in"
        = ([Effect.rmtree "in", Effect.makedirs "in"]
             ++ (dispatch ((fsDir.rmtree "in").makedirs "in") "in/g1.dcm" "in").1,
           (dispatch ((fsDir.rmtree "in").makedirs "in") "in/g1.dcm" "in").2)) :=
  ⟨(main_preflight fsFix "nope" "out").1 rfl,
   (main_preflight fsFix "in.dcm" "in.dcm").2.1 rfl rfl rfl,
   ((main_preflight fsDir "in/g1.dcm" "in").2.2 rfl rfl rfl).2.1,
   (((main_preflight fsDir "in/g1.dcm" "in").2.2 rfl rfl rfl).2.2.1 "in/g1.dcm" rfl).1,
   ((main_preflight fsDir "in/g1.dcm" "in").2.2 rfl rfl rfl).2.2.2⟩

/-- C8 (code bug): when the pre-flight succeeds and the input is classified
as a regular non-index file, the output path is already a directory (the
pre-flight always creates it), so the branch's save to `outputPath` raises
IsADirectoryError even when the input anonymises fine: the run aborts with
only the pre-flight effects, and no file is ever written to `outputPath`. -/
theorem main_singleFile_save_fails (fs : FS) (input output : String) (d2 : DicomDataset)
    (hpre : (preflight fs input output).2.2 = none)
    (hclass : classify (preflight fs input output).1 input = MainBranch.singleFile)
    (hok : anonymiseImageFile (preflight fs input output).1 input
        "REMOVED" "REMOVED" "99991231" = .ok d2) :
    main fs input output = ((preflight fs input output).2.1, some Err.isADirectory) := by
  have hdir : (preflight fs input output).1.isdir output = true := by
    by_cases ha : fs.pexists input
    · by_cases hc : fs.pexists output
      · by_cases hd : fs.isdir output
        · simp [preflight, ha, hc, hd, FS.makedirs]
        · exfalso
          have hbad : (preflight fs input output).2.2 = some Err.invalidOutput := by
            simp [preflight, ha, hc, hd]
          rw [hbad] at hpre
          exact absurd hpre (by simp)
      · simp [preflight, ha, hc, FS.makedirs]
    · exfalso
      have hbad : (preflight fs input output).2.2 = some Err.notFound := by
        simp [preflight, ha]
      rw [hbad] at hpre
      exact absurd hpre (by simp)
  have hdisp : dispatch (preflight fs input output).1 input output
      = ([], some Err.isADirectory) := by
    rw [dispatch, hclass, hok, hdir]
    simp
  rw [main]
  rcases hp : preflight fs input output with ⟨fs1, es, err⟩
  rw [hp] at hpre hdisp
  cases err with
  | some e => exact absurd hpre (by simp)
  | none =>
    simp only []
    rw [hdisp]
    simp

/-- Witness for C8: a concrete valid single-file run aborts with
IsADirectoryError after creating the output directory, writing nothing. -/
theorem main_singleFile_save_fails_witness :
    main fsFix "in.dcm" "out" = ([Effect.makedirs "out"], some Err.isADirectory) :=
  main_singleFile_save_fails fsFix "in.dcm" "out"
    { dFix with
      PatientID := some "REMOVED", PatientName := some "REMOVED",
      PatientBirthDate := some "99991231",
      InstitutionName := some "REMOVED", InstitutionAddress := some "REMOVED",
      StationName := some "REMOVED", ReferringPhysicianName := some "REMOVED",
      RequestingPhysician := some "REMOVED" }
    rfl rfl rfl

/-- Fixture: a filesystem whose only entry is a regular file named
`xDICOMDIR` (not literally `DICOMDIR`). -/
def fsSuffix : FS :=
  { pexists := fun p => p == "xDICOMDIR"
    isfile := fun p => p == "xDICOMDIR"
    isdir := fun _ => false
    content := fun _ => none
    indexContent := fun _ => none
    dirTree := fun _ => .node [] [] }

/-- C9 counterexample: a regular file that merely ends with `DICOMDIR` but is
not named `DICOMDIR` is classified as a standalone index file, refuting the
exact-name reading of the classification. -/
theorem classify_suffix_counterexample :
    classify fsSuffix "xDICOMDIR" = MainBranch.indexFile ∧
    basename "xDICOMDIR" ≠ "DICOMDIR" :=
  ⟨rfl, by decide⟩

/-- C9 (amended): the entry point classifies an input as a standalone index
file exactly when it is an existing regular file whose path string ends with
`DICOMDIR`; this test comes first, independent of the directory checks. -/
theorem classify_indexFile_iff (fs : FS) (input : String) :
    classify fs input = MainBranch.indexFile ↔
      (strEndsWith input "DICOMDIR" = true ∧ fs.isfile input = true) := by
  unfold classify isDICOMDIR
  split_ifs with h1 h2 h3 h4 <;> simp_all

/-- Witness for the amended C9 on the suffix fixture. -/
theorem classify_indexFile_iff_witness :
    classify fsSuffix "xDICOMDIR" = MainBranch.indexFile ∧
    classify fsFix "in.dcm" ≠ MainBranch.indexFile :=
  ⟨(classify_indexFile_iff fsSuffix "xDICOMDIR").2 ⟨rfl, rfl⟩,
   fun h => by
    have := (classify_indexFile_iff fsFix "in.dcm").1 h
    exact absurd this.1 (by decide)⟩

/-- C10: the classification never reaches the UnsupportedInput branch for an
input that is a regular file or a directory: files land in the index-file or
single-file branch, directories in one of the two directory branches. -/
theorem classify_total (fs : FS) (input : String) :
    (fs.isfile input = true → fs.isdir input = false →
      classify fs input = MainBranch.indexFile ∨
      classify fs input = MainBranch.singleFile) ∧
    (fs.isdir input = true → fs.isfile input = false →
      classify fs input = MainBranch.dirWithIndex ∨
      classify fs input = MainBranch.dirWithoutIndex) ∧
    (fs.isfile input = true ∨ fs.isdir input = true →
      classify fs input ≠ MainBranch.unsupported) := by
  refine ⟨?_, ?_, ?_⟩
  · intro hfile hdir
    unfold classify isDICOMDIR
    split_ifs <;> simp_all
  · intro hdir hfile
    unfold classify isDICOMDIR
    split_ifs <;> simp_all
  · intro hor
    unfold classify isDICOMDIR
    split_ifs <;> simp_all

/-- Witness for C10 on concrete file and directory inputs. -/
theorem classify_total_witness :
    classify fsFix "in.dcm" ≠ MainBranch.unsupported ∧
    classify fsDir "in" ≠ MainBranch.unsupported :=
  ⟨(classify_total fsFix "in.dcm").2.2 (Or.inl rfl),
   (classify_total fsDir "in").2.2 (Or.inr rfl)⟩

end Anon
